import Mathlib

/-!
A shallow embedding of the SSH-tunnel / port-redirect subsystem of
`plugin/LHUB.py` (BitBar_LogicHub).

External effects (subprocess calls) are modelled by an explicit trace of the
command strings issued, together with the outcome of the run.  The outputs of
query commands (`ps -ef`, `ifconfig -a`) and the exit status of mutating
commands (`sudo kill`, `sudo -v`, `ssh`, `sudo ifconfig ... alias`) are inputs
of the model.  Python exceptions are modelled with an error type; an
`assert` failure is `PyError.assertionError`, a `check_returncode()` failure is
`PyError.calledProcessError`, a failed tuple unpacking is `PyError.valueError`
and an out-of-range `[0]` index is `PyError.indexError`.
-/

namespace LHUB

/-! ### Python-style character and string helpers -/

/-- Python regex `\s`: whitespace characters. -/
def isPySpace (c : Char) : Bool :=
  c = ' ' || c = '\t' || c = '\n' || c = '\r' || c = '\x0b' || c = '\x0c'

/-- Value of a list of decimal digit characters (`int(...)` on a digit string). -/
def digitsToNat (l : List Char) : Nat :=
  l.foldl (fun a c => a * 10 + (c.toNat - 48)) 0

/-- Whether `needle` occurs as a contiguous sublist of the haystack (Python `in`). -/
def containsSub (needle : List Char) : List Char → Bool
  | [] => needle.isEmpty
  | c :: rest => needle.isPrefixOf (c :: rest) || containsSub needle rest

/-- Python `needle in hay` on strings. -/
def strContains (needle hay : String) : Bool :=
  containsSub needle.toList hay.toList

/-- Python `text.split('\n')` (same as `String.splitOn "\n"`): split on every
newline, keeping empty pieces. -/
def splitNl : List Char → List (List Char)
  | [] => [[]]
  | c :: rest =>
    match splitNl rest with
    | [] => [[]]
    | h :: t => if c = '\n' then [] :: h :: t else (c :: h) :: t

/-- Python `s.strip()`: remove leading and trailing whitespace. -/
def pyStrip (s : String) : String :=
  ⟨((s.toList.dropWhile isPySpace).reverse.dropWhile isPySpace).reverse⟩

/-- Python `re.match(r"^" + pre + ...)`-style literal prefix test
(`String.startsWith`, kept executable on character lists). -/
def strStartsWith (pre s : String) : Bool :=
  pre.toList.isPrefixOf s.toList

/-! ### The PID pattern `^\s*\d+\s+(\d+)`

`do_terminate_tunnels` compiles `re.compile(r"^\s*\d+\s+(\d+)")` and uses both
`pid_pattern.match(_line)` (as the line filter) and
`pid_pattern.findall(_line)[0]` (as the dictionary key).  Because the pattern
is anchored with `^`, `findall` returns at most one capture, the one of the
match at the start of the line, so both uses agree and are modelled by one
function returning the captured group. -/

/-- Capture of `^\s*\d+\s+(\d+)` on a line: optional leading whitespace, a
first decimal integer, at least one whitespace character, then the captured
second decimal integer. -/
def pidOfLine (l : List Char) : Option Nat :=
  let l1 := l.dropWhile isPySpace
  let d1 := l1.takeWhile Char.isDigit
  if d1.isEmpty then none else
    let l2 := l1.dropWhile Char.isDigit
    let s2 := l2.takeWhile isPySpace
    if s2.isEmpty then none else
      let l3 := l2.dropWhile isPySpace
      let d2 := l3.takeWhile Char.isDigit
      if d2.isEmpty then none else some (digitsToNat d2)

/-! ### The endpoint pattern `[^\s:]+:\d+(?=:|\s)` -/

/-- A character allowed by `[^\s:]`. -/
def isTokChar (c : Char) : Bool := !isPySpace c && c != ':'

/-- Attempt to match `[^\s:]+:\d+(?=:|\s)` at the head of `l`.  On success,
returns the matched text together with the remainder of the input starting at
the match end (the look-ahead character is not consumed).  The pattern is
deterministic: `[^\s:]+` cannot trade characters with the literal `:` and
`\d+` cannot trade characters with the look-ahead, so the maximal runs are the
only candidates. -/
def matchEndpointAt (l : List Char) : Option (List Char × List Char) :=
  let a := l.takeWhile isTokChar
  if a.isEmpty then none else
    match l.dropWhile isTokChar with
    | ':' :: r2 =>
      let d := r2.takeWhile Char.isDigit
      if d.isEmpty then none else
        match r2.dropWhile Char.isDigit with
        | c :: rest => if c = ':' || isPySpace c then some (a ++ ':' :: d, c :: rest) else none
        | [] => none
    | _ => none

/-- Fuel-based scanner for `findEndpoints`; the fuel is only a structural
termination device, and `l.length` fuel is always enough because every step
consumes at least one character. -/
def findEndpointsGo : Nat → List Char → List (List Char)
  | 0, _ => []
  | _ + 1, [] => []
  | fuel + 1, c :: rest =>
    match matchEndpointAt (c :: rest) with
    | some (tok, after) => tok :: findEndpointsGo fuel after
    | none => findEndpointsGo fuel rest

/-- Model of `re.findall(r"[^\s:]+:\d+(?=:|\s)", line)`: scan left to right, restart
after each match at the match end. -/
def findEndpoints (l : List Char) : List (List Char) :=
  findEndpointsGo l.length l

/-! ### The server pattern `-f +(\S+)` -/


/-- Attempt to match `-f +(\S+)` at the head of the input and return the
capture: literal `-f`, then one or more space characters, then a maximal
nonempty run of non-whitespace characters. -/
def matchDashFAt : List Char → Option (List Char)
  | '-' :: 'f' :: rest =>
    let sp := rest.takeWhile (fun c => c = ' ')
    if sp.isEmpty then none else
      let r2 := rest.dropWhile (fun c => c = ' ')
      let w := r2.takeWhile (fun c => !isPySpace c)
      if w.isEmpty then none else some w
  | _ => none

/-- Model of `re.findall(r'-f +(\S+)', line)[0]` when it exists: the capture of the
leftmost match. -/
def findServer : List Char → Option (List Char)
  | [] => none
  | c :: rest =>
    match matchDashFAt (c :: rest) with
    | some w => some w
    | none => findServer rest

/-! ### Errors, outcomes, and commands -/

/-- Python exceptions raised by the subsystem. -/
inductive PyError where
  | assertionError (msg : String)
  | calledProcessError (cmd : String)
  | valueError (msg : String)
  | indexError
deriving DecidableEq, Repr

instance {α β : Type} [DecidableEq α] [DecidableEq β] : DecidableEq (Except α β) :=
  fun a b =>
  match a, b with
  | .ok x, .ok y =>
    if h : x = y then .isTrue (by rw [h]) else .isFalse (fun hh => h (by cases hh; rfl))
  | .error x, .error y =>
    if h : x = y then .isTrue (by rw [h]) else .isFalse (fun hh => h (by cases hh; rfl))
  | .ok _, .error _ => .isFalse (fun hh => Except.noConfusion hh)
  | .error _, .ok _ => .isFalse (fun hh => Except.noConfusion hh)

/-- Result of running one of the orchestrator's operations: the trace of
external commands issued (in order), the notifications displayed, and either
the raised error or a result count. -/
structure RunOutcome where
  trace : List String
  notes : List String
  result : Except PyError Nat
deriving DecidableEq, Repr

/-- The command issued by `do_prompt_for_sudo`. -/
def sudoPromptCmd : String := "sudo -v -p \"sudo password: \""

/-- The kill command issued per tunnel PID. -/
def killCmd (pid : Nat) : String := "sudo kill -9 " ++ toString pid

/-- The interface query command of `do_verify_loopback_address`. -/
def ifconfigCmd : String := "ifconfig -a"

/-- The alias-creation command of `do_verify_loopback_address`.  The Python
source writes `f"sudo ifconfig {self.loopback_interface} alias ${loopback_ip}"`
with `self.loopback_interface = "lo0"`; the `$` before `{loopback_ip}` is
outside the f-string replacement field, so it is a literal dollar sign in the
command. -/
def aliasCmd (ip : String) : String := "sudo ifconfig lo0 alias $" ++ ip

/-! ### `do_terminate_tunnels` -/

/-- Computation of `specific_loopback`: `(loopback_ip.strip() if loopback_ip else "") + ":"`,
then `+= f"{loopback_port}:"` when the port is truthy (the base string always
ends in `:` and is therefore always truthy). -/
def specificLoopback (ip : Option String) (port : Option String) : String :=
  let base := (match ip with | some s => if s = "" then "" else pyStrip s | none => "") ++ ":"
  match port with
  | some p => if p = "" then base else base ++ p ++ ":"
  | none => base

/-- The per-line filter of the `tunnel_PIDs` comprehension:
`'ssh' in _line and '-L' in _line and pid_pattern.match(_line) and
specific_loopback in _line`. -/
def lineMatches (filt : String) (line : String) : Bool :=
  strContains "ssh" line && strContains "-L" line &&
    (pidOfLine line.toList).isSome && strContains filt line

/-- The lines of `ps -ef` output retained by the comprehension filter. -/
def matchedLines (ps : String) (filt : String) : List String :=
  ((splitNl ps.toList).map String.mk).filter (lineMatches filt)

/-- Python `dict` insertion: a fresh key is appended, an existing key keeps
its position and is remapped to the new value. -/
def insertPID (m : List (Nat × String)) (k : Nat) (v : String) : List (Nat × String) :=
  if m.any (fun e => e.1 = k) then m.map (fun e => if e.1 = k then (k, v) else e)
  else m ++ [(k, v)]

/-- The `tunnel_PIDs` dictionary, in iteration order. -/
def tunnelPIDs (ps filt : String) : List (Nat × String) :=
  (matchedLines ps filt).foldl (fun m l => insertPID m ((pidOfLine l.toList).getD 0) l) []

/-- Body of the kill loop before the kill command:
`local_host_info, remote_host_info = re.findall(r"[^\s:]+:\d+(?=:|\s)", tunnel)[0:2]`
(raises `ValueError` when fewer than two endpoint tokens are found) and
`_tmp_ssh_server = re.findall(r'-f +(\S+)', tunnel)[0]` (raises `IndexError`
when the line has no `-f` token). -/
def parseTunnelLine (line : String) : Except PyError (String × String × String) :=
  match findEndpoints line.toList with
  | lo :: re :: _ =>
    match findServer line.toList with
    | some srv => .ok (⟨lo⟩, ⟨re⟩, ⟨srv⟩)
    | none => .error .indexError
  | _ => .error (.valueError "not enough values to unpack (expected 2)")

/-- The kill loop of `do_terminate_tunnels`: for each entry, parse the line,
then run `sudo kill -9 {PID}` through `_run_cli_command` with the default
`test=True`, so a non-zero kill exit raises `CalledProcessError` and aborts
the loop.  Returns the issued kill commands and either the raised error or
the number of successful kills. -/
def killLoop (killOk : Nat → Bool) : List (Nat × String) → List String × Except PyError Nat
  | [] => ([], .ok 0)
  | e :: rest =>
    match parseTunnelLine e.2 with
    | .error err => ([], .error err)
    | .ok _ =>
      if killOk e.1 then
        let r := killLoop killOk rest
        (killCmd e.1 :: r.1, r.2.map (· + 1))
      else ([killCmd e.1], .error (.calledProcessError (killCmd e.1)))

/-- Model of `BitBar.do_terminate_tunnels(loopback_ip, loopback_port)`.

Inputs of the model: `ps` is the stdout of `ps -ef`; `sudoOk` is whether the
`sudo -v` prompt of `do_prompt_for_sudo` exits zero; `killOk pid` is whether
`sudo kill -9 pid` exits zero.  The `ps -ef` query itself is not part of the
trace; the trace holds the privileged commands issued afterwards. -/
def do_terminate_tunnels (ps : String) (sudoOk : Bool) (killOk : Nat → Bool)
    (loopbackIp : Option String) (loopbackPort : Option String) : RunOutcome :=
  let pids := tunnelPIDs ps (specificLoopback loopbackIp loopbackPort)
  if pids.isEmpty then
    ⟨[], ["No existing SSH tunnels found"], .ok 0⟩
  else if !sudoOk then
    ⟨[sudoPromptCmd], [], .error (.calledProcessError sudoPromptCmd)⟩
  else
    let r := killLoop killOk pids
    match r.2 with
    | .ok n => ⟨sudoPromptCmd :: r.1, ["Tunnels terminated"], .ok n⟩
    | .error e => ⟨sudoPromptCmd :: r.1, [], .error e⟩

/-! ### `do_verify_loopback_address` -/

/-- A regex word character (`\w`). -/
def isWordChar (c : Char) : Bool := c.isAlphanum || c = '_'

/-- Match the interpolated address pattern against a prefix of the text.  The
address is interpolated into the pattern unescaped, so its `.` characters are
regex wildcards; every other character matches literally. -/
def patMatchPrefix : List Char → List Char → Option (List Char)
  | [], _ => some []
  | _ :: _, [] => none
  | p :: ps, c :: cs =>
    if p = '.' || p = c then (patMatchPrefix ps cs).map (c :: ·) else none

/-- Word-character status of an optional character; absent characters (text
boundaries) count as non-word, per the `\b` assertion. -/
def wordness : Option Char → Bool
  | some c => isWordChar c
  | none => false

/-- Does `\b{pat}\b` match the text at the current position, `prev` being the
character immediately before the position? -/
def aliasFoundAt (pat : List Char) (prev : Option Char) (text : List Char) : Bool :=
  match patMatchPrefix pat text with
  | none => false
  | some m =>
    match m with
    | [] => false
    | mh :: mt =>
      (wordness prev != isWordChar mh) &&
        (wordness (text.drop pat.length).head? != isWordChar (mt.getLastD mh))

/-- Scan the text for any position where `\b{pat}\b` matches. -/
def aliasFoundGo (pat : List Char) (prev : Option Char) : List Char → Bool
  | [] => false
  | c :: rest => aliasFoundAt pat prev (c :: rest) || aliasFoundGo pat (some c) rest

/-- `re.findall(rf"\b{loopback_ip}\b", interfaces_output.stdout)` is truthy. -/
def aliasFound (ifconfigOut : String) (ip : String) : Bool :=
  aliasFoundGo ip.toList none ifconfigOut.toList

/-- Model of `BitBar.do_verify_loopback_address(loopback_ip, allow_all_loopback_ips)`.

`ifconfigOut` is the stdout of `ifconfig -a`; `sudoOk` and `aliasOk` are the
exit statuses of the sudo prompt and of the alias-creation command.  The
three `assert` statements run before any command; the address is stripped
only after them. -/
def do_verify_loopback_address (ifconfigOut : String) (sudoOk aliasOk : Bool)
    (ip : String) (allowAll : Bool) : RunOutcome :=
  if ip = "" then ⟨[], [], .error (.assertionError "No loopback address provided")⟩
  else if !(strStartsWith "127." ip) then
    ⟨[], [], .error (.assertionError ("Invalid loopback address (" ++ ip ++ ")"))⟩
  else if !allowAll && ip = "127.0.0.1" then
    ⟨[], [], .error (.assertionError "Custom loopback IP is required. As a precaution, this script requires a loopback IP other than 127.0.0.1")⟩
  else
    let ip2 := pyStrip ip
    if aliasFound ifconfigOut ip2 then ⟨[ifconfigCmd], [], .ok 0⟩
    else if !sudoOk then
      ⟨[ifconfigCmd, sudoPromptCmd], [], .error (.calledProcessError sudoPromptCmd)⟩
    else if aliasOk then ⟨[ifconfigCmd, sudoPromptCmd, aliasCmd ip2], [], .ok 0⟩
    else ⟨[ifconfigCmd, sudoPromptCmd, aliasCmd ip2], [],
      .error (.calledProcessError (aliasCmd ip2))⟩

/-! ### `do_execute_port_redirect` -/

/-- The single NAT rule text placed in the `echo`. -/
def redirectRule (sa sp ta tp : String) : String :=
  "rdr pass inet proto tcp from any to " ++ sa ++ " port " ++ sp ++ " -> " ++
    ta ++ " port " ++ tp

/-- The full piped shell command handed to `_run_shell_command_with_pipes`. -/
def redirectCmd (sa sp ta tp : String) : String :=
  "echo \"" ++ redirectRule sa sp ta tp ++ "\" | sudo -p \"sudo password: \" pfctl -ef -"

/-- Modelled from the spec: the firewall-control executor (`pfctl`) is not part
of this repository.  Per the spec, its "load rules from standard input and
enable" mode (`pfctl -ef -`) replaces the entire active rule set with the
rules read from standard input, rather than adding to it. -/
def pfctlLoadFromStdin (_current : List String) (newRules : List String) : List String :=
  newRules

/-- Model of `BitBar.do_execute_port_redirect(source_address, source_port,
target_address, target_port)`.  The piped command runs through
`subprocess.getoutput`, whose exit status is never checked, so the step
itself cannot raise. -/
def do_execute_port_redirect (ifconfigOut : String) (sudoOk aliasOk : Bool)
    (sa sp ta tp : String) : RunOutcome :=
  let v := do_verify_loopback_address ifconfigOut sudoOk aliasOk sa false
  match v.result with
  | .error e => ⟨v.trace, v.notes, .error e⟩
  | .ok _ =>
    ⟨v.trace ++ [redirectCmd sa sp ta tp],
      v.notes ++ ["Port Redirection Enabled:\n\n" ++ sa ++ ":" ++ sp ++ " --> " ++
        ta ++ ":" ++ tp],
      .ok 0⟩

/-! ### `do_execute_ssh_tunnel` -/

/-- One tunnel entry of `[BitBar.networking]`; configobj values are strings,
and an absent key is `None`. -/
structure TunnelConfig where
  name : Option String := none
  remote_ip : Option String := none
  remote_port : Option String := none
  local_address : Option String := none
  local_port : Option String := none
  ssh_server : Option String := none
  ssh_port : Option String := none
  ssh_user : Option String := none
  ssh_key : Option String := none
  ssh_options : Option String := none

/-- Value of `dict.get(key)` read as a string, `None` mapped to the falsy `""`. -/
def pyStr (o : Option String) : String := o.getD ""

/-- Python `a or b` on strings (empty is falsy). -/
def pyOr (a b : String) : String := if a = "" then b else a

/-- Value of `config_dict.get("ssh_port") or 22`: either a truthy configuration string
or the integer `22`. -/
inductive PortVal where
  | str (s : String)
  | int22
deriving DecidableEq, Repr

def effSshPort (o : Option String) : PortVal :=
  match o with
  | some s => if s = "" then .int22 else .str s
  | none => .int22

/-- Python `ssh_server_port != 22`: comparing a string with the integer `22`
is always `True`; only the defaulted integer `22` compares equal. -/
def portNe22 : PortVal → Bool
  | .str _ => true
  | .int22 => false

/-- How the port value renders inside the f-string of the ssh command. -/
def renderPort : PortVal → String
  | .str s => s
  | .int22 => "22"

/-- SSH option composition of `do_execute_ssh_tunnel`: empty options become
the default key option plus the `StrictHostKeyChecking=no` bypass; otherwise,
when the options do not already contain `-i`, the default key option is
prepended; otherwise they are left unchanged. -/
def composeSshOptions (sshKey opts : String) : String :=
  if opts = "" then "-i " ++ sshKey ++ " -o StrictHostKeyChecking=no"
  else if !(strContains "-i" opts) then "-i " ++ sshKey ++ " " ++ opts
  else opts

/-- The assembled tunnel command. -/
def sshCmd (opts la lp ra rp user server : String) (port : PortVal) : String :=
  "sudo ssh " ++ opts ++ " -Y -L " ++ la ++ ":" ++ lp ++ ":" ++ ra ++ ":" ++ rp ++
    " -N -f " ++ user ++ "@" ++ server ++ " -p " ++ renderPort port

/-- The module state `do_execute_ssh_tunnel` reads besides the config. -/
structure BitBarVars where
  local_user : String
  default_ssh_key : String

/-- External-world inputs of a tunnel run. -/
structure World where
  ifconfigOut : String := ""
  psOut : String := ""
  sudoOk : Bool := true
  aliasOk : Bool := true
  killOk : Nat → Bool := fun _ => true
  sshOk : Bool := true

/-- Model of `BitBar.do_execute_ssh_tunnel(config_dict)`: sudo prompt first, then field
extraction and the `assert` chain, then loopback verification, then
termination of tunnels bound to the same endpoint, then the ssh command. -/
def do_execute_ssh_tunnel (w : World) (v : BitBarVars) (cfg : TunnelConfig) : RunOutcome :=
  if !w.sudoOk then ⟨[sudoPromptCmd], [], .error (.calledProcessError sudoPromptCmd)⟩
  else
    let ra := pyStr cfg.remote_ip
    let rp := pyStr cfg.remote_port
    let la := pyStr cfg.local_address
    let lp := pyOr (pyStr cfg.local_port) rp
    let server := pyStr cfg.ssh_server
    let port := effSshPort cfg.ssh_port
    let user := pyOr (pyStr cfg.ssh_user) v.local_user
    let key := pyOr (pyStr cfg.ssh_key) v.default_ssh_key
    let opts := pyStrip (pyStr cfg.ssh_options)
    if pyStr cfg.name = "" then
      ⟨[sudoPromptCmd], [], .error (.assertionError "Error: SSH config must be given a name")⟩
    else if server = "" then
      ⟨[sudoPromptCmd], [], .error (.assertionError "Error: SSH server address not provided")⟩
    else if ra = "" then
      ⟨[sudoPromptCmd], [], .error (.assertionError "Error: Remote address for SSH tunnel not provided")⟩
    else if rp = "" then
      ⟨[sudoPromptCmd], [], .error (.assertionError "Error: Remote port for SSH tunnel not provided")⟩
    else if la = "" then
      ⟨[sudoPromptCmd], [], .error (.assertionError "Error: Loopback address not provided")⟩
    else if lp = "" then
      ⟨[sudoPromptCmd], [], .error (.assertionError "Error: Loopback port not provided")⟩
    else if !(portNe22 port || !(strStartsWith "127." server)) then
      ⟨[sudoPromptCmd], [], .error (.assertionError "Error: SSH server is a loopback IP, and the port is left at 22. This will create a tunnel to your own machine and won't work!")⟩
    else
      let vres := do_verify_loopback_address w.ifconfigOut w.sudoOk w.aliasOk la false
      match vres.result with
      | .error e => ⟨sudoPromptCmd :: vres.trace, vres.notes, .error e⟩
      | .ok _ =>
        let t := do_terminate_tunnels w.psOut w.sudoOk w.killOk (some la) (some lp)
        match t.result with
        | .error e => ⟨sudoPromptCmd :: (vres.trace ++ t.trace), vres.notes ++ t.notes, .error e⟩
        | .ok _ =>
          let cmd := sshCmd (composeSshOptions key opts) la lp ra rp user server port
          if w.sshOk then
            ⟨sudoPromptCmd :: (vres.trace ++ t.trace ++ [cmd]), vres.notes ++ t.notes, .ok 0⟩
          else
            ⟨sudoPromptCmd :: (vres.trace ++ t.trace ++ [cmd]), vres.notes ++ t.notes,
              .error (.calledProcessError cmd)⟩


/-! ### Helpers and fixtures for the verification -/

/-- Whether an `Except` value is a success (`Except.isOk`). -/
def exceptOk {e a : Type} : Except e a → Bool
  | .ok _ => true
  | .error _ => false

/-- A run of `n` space characters. -/
def spaces (n : Nat) : List Char := List.replicate n ' '

/-- Join words, each followed by one or more spaces (`e.2 + 1` of them). -/
def wordsJoin : List (List Char × Nat) → List Char
  | [] => []
  | e :: rest => e.1 ++ spaces (e.2 + 1) ++ wordsJoin rest

/-- A well-formed `ps -ef` row for an SSH local-forward process: optional
leading whitespace, the UID column, the PID column, the `ssh` token,
arbitrary further argument words (`args1`), the `-L` flag with its
`ip:port:ip:port` argument, further argument words (`args2`), and the
`-f server` pair.  Every gap is a run of one or more spaces (written as
`' ' :: spaces g`, i.e. `g + 1` spaces). -/
def mkPsLine (ws0 : Nat) (uid : List Char) (g1 : Nat) (pid : List Char) (g2 : Nat)
    (gs : Nat) (args1 : List (List Char × Nat)) (gL : Nat)
    (lip lport rip rport : List Char) (g3 : Nat)
    (args2 : List (List Char × Nat)) (gf : Nat) (server : List Char) : List Char :=
  spaces ws0 ++ (uid ++ (' ' :: (spaces g1 ++ (pid ++ (' ' :: (spaces g2 ++
    (['s', 's', 'h'] ++ (' ' :: (spaces gs ++ (wordsJoin args1 ++
    (['-', 'L'] ++ (' ' :: (spaces gL ++
    (lip ++ ':' :: lport ++ ':' :: rip ++ ':' :: rport ++ ' ' :: (spaces g3 ++
    (wordsJoin args2 ++ ('-' :: 'f' :: (spaces (gf + 1) ++ server))))))))))))))))))

/-- Whether a word ends with the two characters `-f` (in which case the word
boundary that follows it lets `-f +(\S+)` match inside surrounding text). -/
def endsWithDashF : List Char → Bool
  | [] => false
  | [_] => false
  | [a, b] => a == '-' && b == 'f'
  | _ :: rest => endsWithDashF rest

/-- A nonempty all-digit field (a `ps -ef` UID/PID column or a port).  The
last two conjuncts record consequences of digit-hood that the proofs use:
digits are endpoint-token characters and are not the letter `f`. -/
def digitsWord (w : List Char) : Prop :=
  w ≠ [] ∧ ∀ c ∈ w, c.isDigit = true ∧ isTokChar c = true ∧ c ≠ 'f'

/-- A nonempty word of `[^\s:]` characters (an IP field of the `-L` blob). -/
def tokWord (w : List Char) : Prop :=
  w ≠ [] ∧ ∀ c ∈ w, isTokChar c = true

/-- A command-line argument word: no whitespace, no colon, and not ending in
`-f`. -/
def argWord (e : List Char × Nat) : Prop :=
  (∀ c ∈ e.1, isTokChar c = true) ∧ endsWithDashF e.1 = false

instance (w : List Char) : Decidable (digitsWord w) := by
  unfold digitsWord
  infer_instance

instance (w : List Char) : Decidable (tokWord w) := by
  unfold tokWord
  infer_instance

instance (e : List Char × Nat) : Decidable (argWord e) := by
  unfold argWord
  infer_instance

/-- A process table with three matching SSH local-forward rows, PIDs 111,
222, 333 (`ps -ef` order: UID column first, PID column second). -/
def ps3 : String :=
  "  1 111 ssh -L 127.0.0.2:5001:10.0.0.5:5001 -N -f hostA\n  1 222 ssh -L 127.0.0.3:5002:10.0.0.6:5002 -N -f hostB\n  1 333 ssh -L 127.0.0.4:5003:10.0.0.7:5003 -N -f hostC"

/-- A process table whose first matching row passes the coarse filters
(`ssh`, `-L`, the PID pattern, a colon) but has no well-formed `ip:port`
endpoint token, followed by a well-formed matching row with PID 555. -/
def psBad : String :=
  "  1 444 ssh -L 127.0.0.9: -f hostX\n  1 555 ssh -L 127.0.0.2:6001:10.0.0.5:6001 -N -f hostY"

/-- The spec scenario configuration named `db`. -/
def dbConfig : TunnelConfig :=
  { name := some "db", local_address := some "127.0.0.2", local_port := some "5432",
    remote_ip := some "10.0.0.5", remote_port := some "5432",
    ssh_server := some "bastion.example.com", ssh_user := some "alice",
    ssh_key := some "/keys/id" }

/-- A world for the `db` scenario: the loopback alias already exists and no
process matches, every command succeeds. -/
def dbWorld : World := { ifconfigOut := "inet 127.0.0.2 netmask 0xff000000" }

def dbVars : BitBarVars := ⟨"bob", "/default/key"⟩

/-- A config whose `ssh_server` is a loopback address and whose `ssh_port`
is left unset (so the Python value is the integer `22`). -/
def cfgLoop22 : TunnelConfig :=
  { name := some "t", remote_ip := some "10.0.0.5", remote_port := some "443",
    local_address := some "127.0.0.2", ssh_server := some "127.0.0.9" }

/-- The same config with `ssh_port` explicitly set to the string `"22"`. -/
def cfgLoop22str : TunnelConfig := { cfgLoop22 with ssh_port := some "22" }

def w22 : World := { ifconfigOut := "inet 127.0.0.2 x" }

/-! ## Proofs -/

/-! ### Generic list lemmas -/

theorem takeWhile_append_all (p : Char → Bool) (a b : List Char)
    (ha : ∀ c ∈ a, p c = true) : (a ++ b).takeWhile p = a ++ b.takeWhile p := by
  induction a with
  | nil => rfl
  | cons c cs ih =>
    rw [List.cons_append, List.takeWhile_cons, ha c (List.mem_cons_self c cs),
      ih (fun x hx => ha x (List.mem_cons_of_mem c hx))]
    simp

theorem dropWhile_append_all (p : Char → Bool) (a b : List Char)
    (ha : ∀ c ∈ a, p c = true) : (a ++ b).dropWhile p = b.dropWhile p := by
  induction a with
  | nil => rfl
  | cons c cs ih =>
    rw [List.cons_append, List.dropWhile_cons, ha c (List.mem_cons_self c cs),
      ih (fun x hx => ha x (List.mem_cons_of_mem c hx))]
    simp

theorem containsSub_of_middle (needle a b : List Char) :
    containsSub needle (a ++ needle ++ b) = true := by
  induction a with
  | nil =>
    rw [List.nil_append]
    rcases hn : needle ++ b with _ | ⟨c, rest⟩
    · rcases needle with _ | _
      · rfl
      · simp at hn
    · have hpre : needle.isPrefixOf (c :: rest) = true := by
        rw [← hn]
        exact List.isPrefixOf_iff_prefix.mpr ⟨b, rfl⟩
      rw [containsSub, hpre, Bool.true_or]
  | cons c cs ih =>
    rw [List.cons_append, List.cons_append, containsSub, ih, Bool.or_true]


theorem matchEndpointAt_shrink {l tok after : List Char}
    (h : matchEndpointAt l = some (tok, after)) : after.length < l.length := by
  unfold matchEndpointAt at h
  simp only at h
  split at h
  · exact absurd h (by simp)
  · rename_i hae
    split at h
    · rename_i r2 heq
      split at h
      · exact absurd h (by simp)
      · rename_i hde
        split at h
        · rename_i c2 rest heq2
          split at h
          · rw [Option.some.injEq, Prod.mk.injEq] at h
            have hafter : after = c2 :: rest := h.2.symm
            have hlen1 : l.length = (l.takeWhile isTokChar).length + (':' :: r2).length := by
              conv_lhs => rw [← List.takeWhile_append_dropWhile (p := isTokChar) (l := l)]
              rw [heq, List.length_append]
            have hlen2 : r2.length =
                (r2.takeWhile Char.isDigit).length + (c2 :: rest).length := by
              conv_lhs => rw [← List.takeWhile_append_dropWhile (p := Char.isDigit) (l := r2)]
              rw [heq2, List.length_append]
            have ha1 : 1 ≤ (l.takeWhile isTokChar).length := by
              rcases hcase : l.takeWhile isTokChar with _ | _
              · rw [hcase] at hae; simp at hae
              · simp
            have hd1 : 1 ≤ (r2.takeWhile Char.isDigit).length := by
              rcases hcase : r2.takeWhile Char.isDigit with _ | _
              · rw [hcase] at hde; simp at hde
              · simp
            subst hafter
            simp only [List.length_cons] at hlen1 hlen2 ⊢
            omega
          · exact absurd h (by simp)
        · exact absurd h (by simp)
    · exact absurd h (by simp)

theorem findEndpointsGo_nil (f : Nat) : findEndpointsGo f [] = [] := by
  cases f <;> rfl

theorem findEndpointsGo_congr : ∀ f g l, l.length ≤ f → l.length ≤ g →
    findEndpointsGo f l = findEndpointsGo g l := by
  intro f
  induction f with
  | zero =>
    intro g l hf _
    have : l = [] := by
      cases l
      · rfl
      · simp at hf
    subst this
    rw [findEndpointsGo_nil, findEndpointsGo_nil]
  | succ f ih =>
    intro g l hf hg
    cases l with
    | nil => rw [findEndpointsGo_nil, findEndpointsGo_nil]
    | cons c rest =>
      cases g with
      | zero => simp at hg
      | succ g =>
        simp only [List.length_cons] at hf hg
        show (match matchEndpointAt (c :: rest) with
          | some (tok, after) => tok :: findEndpointsGo f after
          | none => findEndpointsGo f rest) =
          (match matchEndpointAt (c :: rest) with
          | some (tok, after) => tok :: findEndpointsGo g after
          | none => findEndpointsGo g rest)
        rcases hm : matchEndpointAt (c :: rest) with _ | ⟨tok, after⟩
        · simp only
          exact ih g rest (by omega) (by omega)
        · simp only
          have hsh := matchEndpointAt_shrink hm
          simp only [List.length_cons] at hsh
          exact congrArg (tok :: ·) (ih g after (by omega) (by omega))

theorem findEndpoints_cons_some {c : Char} {rest tok after : List Char}
    (hm : matchEndpointAt (c :: rest) = some (tok, after)) :
    findEndpoints (c :: rest) = tok :: findEndpoints after := by
  show findEndpointsGo (c :: rest).length (c :: rest) = _
  have hsh := matchEndpointAt_shrink hm
  simp only [List.length_cons] at hsh ⊢
  show (match matchEndpointAt (c :: rest) with
    | some (tok, after) => tok :: findEndpointsGo rest.length after
    | none => findEndpointsGo rest.length rest) = _
  rw [hm]
  exact congrArg (tok :: ·) (findEndpointsGo_congr _ _ _ (by omega) (by omega))

theorem findEndpoints_cons_none {c : Char} {rest : List Char}
    (hm : matchEndpointAt (c :: rest) = none) :
    findEndpoints (c :: rest) = findEndpoints rest := by
  show findEndpointsGo (c :: rest).length (c :: rest) = _
  simp only [List.length_cons]
  show (match matchEndpointAt (c :: rest) with
    | some (tok, after) => tok :: findEndpointsGo rest.length after
    | none => findEndpointsGo rest.length rest) = _
  rw [hm]
  rfl


/-! ### Scanning lemmas for the endpoint pattern -/

theorem matchEndpointAt_cons_not_tok (c : Char) (rest : List Char)
    (h : isTokChar c = false) : matchEndpointAt (c :: rest) = none := by
  unfold matchEndpointAt
  simp [List.takeWhile_cons, h]

theorem matchEndpointAt_word_space (w : List Char) (R : List Char)
    (hw : ∀ c ∈ w, isTokChar c = true) :
    matchEndpointAt (w ++ ' ' :: R) = none := by
  unfold matchEndpointAt
  have h1 : (w ++ ' ' :: R).takeWhile isTokChar = w := by
    rw [takeWhile_append_all _ _ _ hw, List.takeWhile_cons]
    norm_num [isTokChar, isPySpace]
  have h2 : (w ++ ' ' :: R).dropWhile isTokChar = ' ' :: R := by
    rw [dropWhile_append_all _ _ _ hw, List.dropWhile_cons]
    norm_num [isTokChar, isPySpace]
  simp only [h1, h2]
  split
  · rfl
  · rfl

theorem findEndpoints_skip_word (w : List Char) (R : List Char)
    (hw : ∀ c ∈ w, isTokChar c = true) :
    findEndpoints (w ++ ' ' :: R) = findEndpoints R := by
  induction w with
  | nil =>
    rw [List.nil_append,
      findEndpoints_cons_none (matchEndpointAt_cons_not_tok ' ' R rfl)]
  | cons c cs ih =>
    have hm : matchEndpointAt ((c :: cs) ++ ' ' :: R) = none :=
      matchEndpointAt_word_space _ _ hw
    rw [List.cons_append] at hm
    rw [List.cons_append, findEndpoints_cons_none hm,
      ih (fun x hx => hw x (List.mem_cons_of_mem c hx))]

theorem findEndpoints_skip_spaces (k : Nat) (R : List Char) :
    findEndpoints (spaces k ++ R) = findEndpoints R := by
  induction k with
  | zero => rfl
  | succ k ih =>
    have hsp : spaces (k + 1) ++ R = ' ' :: (spaces k ++ R) := by
      simp [spaces, List.replicate_succ]
    rw [hsp, findEndpoints_cons_none (matchEndpointAt_cons_not_tok ' ' _ rfl), ih]

theorem findEndpoints_skip_wordsJoin (ws : List (List Char × Nat)) (R : List Char)
    (hws : ∀ e ∈ ws, ∀ c ∈ e.1, isTokChar c = true) :
    findEndpoints (wordsJoin ws ++ R) = findEndpoints R := by
  induction ws with
  | nil => rfl
  | cons e es ih =>
    have h1 : wordsJoin (e :: es) ++ R =
        e.1 ++ ' ' :: (spaces e.2 ++ (wordsJoin es ++ R)) := by
      show (e.1 ++ spaces (e.2 + 1) ++ wordsJoin es) ++ R = _
      simp [spaces, List.replicate_succ, List.append_assoc]
    rw [h1, findEndpoints_skip_word _ _ (hws e (List.mem_cons_self e es)),
      findEndpoints_skip_spaces,
      ih (fun x hx => hws x (List.mem_cons_of_mem e hx))]

theorem matchEndpointAt_endpoint (ip port : List Char) (c : Char) (R : List Char)
    (hip : ip ≠ []) (hipc : ∀ x ∈ ip, isTokChar x = true)
    (hport : port ≠ []) (hportc : ∀ x ∈ port, x.isDigit = true)
    (hc : c = ':' ∨ isPySpace c = true) (hcd : c.isDigit = false)
    (hct : isTokChar c = false) :
    matchEndpointAt (ip ++ ':' :: (port ++ c :: R)) = some (ip ++ ':' :: port, c :: R) := by
  unfold matchEndpointAt
  have h1 : (ip ++ ':' :: (port ++ c :: R)).takeWhile isTokChar = ip := by
    rw [takeWhile_append_all _ _ _ hipc, List.takeWhile_cons]
    norm_num [isTokChar, isPySpace]
  have h2 : (ip ++ ':' :: (port ++ c :: R)).dropWhile isTokChar = ':' :: (port ++ c :: R) := by
    rw [dropWhile_append_all _ _ _ hipc, List.dropWhile_cons]
    norm_num [isTokChar, isPySpace]
  have h3 : (port ++ c :: R).takeWhile Char.isDigit = port := by
    rw [takeWhile_append_all _ _ _ hportc, List.takeWhile_cons, hcd]
    simp
  have h4 : (port ++ c :: R).dropWhile Char.isDigit = c :: R := by
    rw [dropWhile_append_all _ _ _ hportc, List.dropWhile_cons, hcd]
    simp
  simp only [h1, h2, h3, h4]
  have hipe : ip.isEmpty = false := by
    cases ip
    · exact absurd rfl hip
    · rfl
  have hpe : port.isEmpty = false := by
    cases port
    · exact absurd rfl hport
    · rfl
  rw [hipe, hpe]
  simp only [Bool.false_eq_true, if_false]
  rcases hc with hc | hc
  · subst hc
    simp
  · rw [hc]
    simp

theorem findEndpoints_blob (lip lport rip rport : List Char) (R : List Char)
    (hlip : tokWord lip) (hlport : digitsWord lport)
    (hrip : tokWord rip) (hrport : digitsWord rport) :
    findEndpoints (lip ++ ':' :: lport ++ ':' :: rip ++ ':' :: rport ++ ' ' :: R) =
      (lip ++ ':' :: lport) :: (rip ++ ':' :: rport) :: findEndpoints (' ' :: R) := by
  obtain ⟨hlip1, hlip2⟩ := hlip
  obtain ⟨hlport1, hlport2⟩ := hlport
  obtain ⟨hrip1, hrip2⟩ := hrip
  obtain ⟨hrport1, hrport2⟩ := hrport
  have hlpd : ∀ x ∈ lport, x.isDigit = true := fun x hx => (hlport2 x hx).1
  have hrpd : ∀ x ∈ rport, x.isDigit = true := fun x hx => (hrport2 x hx).1
  have hm1 : matchEndpointAt (lip ++ ':' :: (lport ++ ':' :: (rip ++ ':' :: rport ++ ' ' :: R))) =
      some (lip ++ ':' :: lport, ':' :: (rip ++ ':' :: rport ++ ' ' :: R)) :=
    matchEndpointAt_endpoint lip lport ':' (rip ++ ':' :: rport ++ ' ' :: R)
      hlip1 hlip2 hlport1 hlpd (Or.inl rfl) rfl rfl
  have hm2 : matchEndpointAt (rip ++ ':' :: (rport ++ ' ' :: R)) =
      some (rip ++ ':' :: rport, ' ' :: R) :=
    matchEndpointAt_endpoint rip rport ' ' R hrip1 hrip2 hrport1 hrpd
      (Or.inr rfl) rfl rfl
  have hshape : lip ++ ':' :: lport ++ ':' :: rip ++ ':' :: rport ++ ' ' :: R =
      lip ++ ':' :: (lport ++ ':' :: (rip ++ ':' :: rport ++ ' ' :: R)) := by
    simp [List.append_assoc]
  rw [hshape]
  rcases hlipc : lip with _ | ⟨c0, lip'⟩
  · exact absurd hlipc hlip1
  · rw [List.cons_append,
      findEndpoints_cons_some (by rw [← List.cons_append, ← hlipc]; exact hm1), ← hlipc]
    rw [findEndpoints_cons_none (matchEndpointAt_cons_not_tok ':' _ rfl)]
    have hshape2 : rip ++ ':' :: rport ++ ' ' :: R = rip ++ ':' :: (rport ++ ' ' :: R) := by
      simp [List.append_assoc]
    rw [hshape2]
    rcases hripc : rip with _ | ⟨c1, rip'⟩
    · exact absurd hripc hrip1
    · rw [List.cons_append,
        findEndpoints_cons_some (by rw [← List.cons_append, ← hripc]; exact hm2), ← hripc]

/-! ### Scanning lemmas for the server pattern -/

theorem ewdf_cons (c a b : Char) (t : List Char) :
    endsWithDashF (c :: a :: b :: t) = endsWithDashF (a :: b :: t) := rfl

theorem ewdf_tail {c : Char} {cs : List Char}
    (h : endsWithDashF (c :: cs) = false) : endsWithDashF cs = false := by
  rcases cs with _ | ⟨a, _ | ⟨b, t⟩⟩
  · rfl
  · rfl
  · rw [ewdf_cons] at h
    exact h

theorem ewdf_ne {w : List Char} (h : endsWithDashF w = false) : w ≠ ['-', 'f'] := by
  intro heq
  rw [heq] at h
  exact absurd h (by decide)

theorem ewdf_cons_of_long (c : Char) (r : List Char) (h : 2 ≤ r.length) :
    endsWithDashF (c :: r) = endsWithDashF r := by
  rcases r with _ | ⟨a, _ | ⟨b, t⟩⟩
  · simp at h
  · simp at h
  · exact ewdf_cons c a b t

theorem ewdf_append (x w : List Char) (h : 2 ≤ w.length) :
    endsWithDashF (x ++ w) = endsWithDashF w := by
  induction x with
  | nil => rfl
  | cons c cs ih =>
    rw [List.cons_append, ewdf_cons_of_long c (cs ++ w) (by simp; omega), ih]

theorem ewdf_false_of_ne_f (w : List Char) (h : ∀ c ∈ w, c ≠ 'f') :
    endsWithDashF w = false := by
  induction w with
  | nil => rfl
  | cons c cs ih =>
    rcases hcs : cs with _ | ⟨a, _ | ⟨b, t⟩⟩
    · rfl
    · have ha : a ≠ 'f' := h a (by simp [hcs])
      show (c == '-' && a == 'f') = false
      simp [ha]
    · rw [ewdf_cons]
      rw [← hcs]
      exact ih (fun x hx => h x (List.mem_cons_of_mem c hx))

theorem tok_no_space {c : Char} (h : isTokChar c = true) : isPySpace c = false := by
  cases hps : isPySpace c
  · rfl
  · unfold isTokChar at h
    rw [hps] at h
    simp at h

theorem no_space_append {a b : List Char} (ha : ∀ c ∈ a, isPySpace c = false)
    (hb : ∀ c ∈ b, isPySpace c = false) : ∀ c ∈ a ++ b, isPySpace c = false := by
  intro c hc
  rcases List.mem_append.mp hc with h | h
  · exact ha c h
  · exact hb c h

theorem matchDashFAt_word (w : List Char) (R : List Char)
    (hw : ∀ c ∈ w, isPySpace c = false)
    (hne : w ≠ ['-', 'f']) :
    matchDashFAt (w ++ ' ' :: R) = none := by
  rw [matchDashFAt.eq_def]
  split
  · rename_i rest heq
    rcases w with _ | ⟨c1, _ | ⟨c2, w'⟩⟩
    · simp at heq
    · simp only [List.cons_append, List.nil_append, List.cons.injEq] at heq
      exact absurd heq.2.1 (by decide)
    · simp only [List.cons_append, List.cons.injEq] at heq
      obtain ⟨hc1, hc2, hrest⟩ := heq
      rcases hw' : w' with _ | ⟨d, t⟩
      · exact absurd (by rw [hc1, hc2, hw']) hne
      · have hd : isPySpace d = false := hw d (by simp [hw'])
        have hd' : ¬(d = ' ') := by
          intro hdd
          rw [hdd] at hd
          exact absurd hd (by decide)
        subst hrest
        rw [hw']
        simp [List.takeWhile_cons, hd']
  · rfl

theorem findServer_skip_word (w : List Char) (R : List Char)
    (hw : ∀ c ∈ w, isPySpace c = false)
    (hsuf : endsWithDashF w = false) :
    findServer (w ++ ' ' :: R) = findServer R := by
  induction w with
  | nil =>
    rw [List.nil_append]
    show (match matchDashFAt (' ' :: R) with
      | some v => some v
      | none => findServer R) = findServer R
    rw [show matchDashFAt (' ' :: R) = none from rfl]
  | cons c cs ih =>
    have hm : matchDashFAt ((c :: cs) ++ ' ' :: R) = none :=
      matchDashFAt_word _ _ hw (ewdf_ne hsuf)
    rw [List.cons_append] at hm
    rw [List.cons_append]
    show (match matchDashFAt (c :: (cs ++ ' ' :: R)) with
      | some v => some v
      | none => findServer (cs ++ ' ' :: R)) = findServer R
    rw [hm]
    exact ih (fun x hx => hw x (List.mem_cons_of_mem c hx)) (ewdf_tail hsuf)

theorem findServer_skip_spaces (k : Nat) (R : List Char) :
    findServer (spaces k ++ R) = findServer R := by
  induction k with
  | zero => rfl
  | succ k ih =>
    have hsp : spaces (k + 1) ++ R = ' ' :: (spaces k ++ R) := by
      simp [spaces, List.replicate_succ]
    rw [hsp]
    show (match matchDashFAt (' ' :: (spaces k ++ R)) with
      | some v => some v
      | none => findServer (spaces k ++ R)) = findServer R
    rw [show matchDashFAt (' ' :: (spaces k ++ R)) = none from rfl, ih]

theorem findServer_skip_wordsJoin (ws : List (List Char × Nat)) (R : List Char)
    (hws : ∀ e ∈ ws, argWord e) :
    findServer (wordsJoin ws ++ R) = findServer R := by
  induction ws with
  | nil => rfl
  | cons e es ih =>
    obtain ⟨htok, hdf⟩ := hws e (List.mem_cons_self e es)
    have h1 : wordsJoin (e :: es) ++ R =
        e.1 ++ ' ' :: (spaces e.2 ++ (wordsJoin es ++ R)) := by
      show (e.1 ++ spaces (e.2 + 1) ++ wordsJoin es) ++ R = _
      simp [spaces, List.replicate_succ, List.append_assoc]
    rw [h1, findServer_skip_word _ _ (fun c hc => tok_no_space (htok c hc)) hdf,
      findServer_skip_spaces,
      ih (fun x hx => hws x (List.mem_cons_of_mem e hx))]

theorem findServer_hit (g : Nat) (server : List Char)
    (hs : server ≠ []) (hns : ∀ c ∈ server, isPySpace c = false) :
    findServer ('-' :: 'f' :: (spaces (g + 1) ++ server)) = some server := by
  obtain ⟨s0, s', hs0⟩ : ∃ s0 s', server = s0 :: s' := by
    rcases server with _ | ⟨s0, s'⟩
    · exact absurd rfl hs
    · exact ⟨s0, s', rfl⟩
  have hs0ns : ¬(s0 = ' ') := by
    intro hdd
    have hmm := hns s0 (by simp [hs0])
    rw [hdd] at hmm
    exact absurd hmm (by decide)
  have hmem : ∀ c ∈ spaces (g + 1), (fun c => decide (c = ' ')) c = true := by
    intro c hc
    have hc' : c ∈ List.replicate (g + 1) ' ' := hc
    simp [List.eq_of_mem_replicate hc']
  have hsp1 : (spaces (g + 1) ++ server).takeWhile (fun c => decide (c = ' ')) =
      spaces (g + 1) := by
    rw [takeWhile_append_all _ _ _ hmem, hs0]
    simp [List.takeWhile_cons, hs0ns]
  have hsp2 : (spaces (g + 1) ++ server).dropWhile (fun c => decide (c = ' ')) = server := by
    rw [dropWhile_append_all _ _ _ hmem, hs0]
    simp [List.dropWhile_cons, hs0ns]
  have hw : server.takeWhile (fun c => !isPySpace c) = server := by
    conv_lhs => rw [← List.append_nil server]
    rw [takeWhile_append_all _ _ _ (fun c hc => by simp [hns c hc])]
    simp
  have hm : matchDashFAt ('-' :: 'f' :: (spaces (g + 1) ++ server)) = some server := by
    show (let sp := (spaces (g + 1) ++ server).takeWhile (fun c => c = ' ')
      if sp.isEmpty then none else
        let r2 := (spaces (g + 1) ++ server).dropWhile (fun c => c = ' ')
        let w := r2.takeWhile (fun c => !isPySpace c)
        if w.isEmpty then none else some w) = some server
    simp only [hsp1, hsp2, hw]
    have h1 : (spaces (g + 1)).isEmpty = false := by simp [spaces]
    have h2 : server.isEmpty = false := by
      rw [hs0]
      rfl
    rw [h1, h2]
    rfl
  show (match matchDashFAt ('-' :: 'f' :: (spaces (g + 1) ++ server)) with
    | some v => some v
    | none => findServer ('f' :: (spaces (g + 1) ++ server))) = some server
  rw [hm]

/-! ### Extraction lemmas on well-formed rows -/

theorem spaces_all_pyspace (k : Nat) : ∀ c ∈ spaces k, isPySpace c = true := by
  intro c hc
  have hc' : c ∈ List.replicate k ' ' := hc
  rw [List.eq_of_mem_replicate hc']
  rfl

theorem nonempty_cons {w : List Char} (h : w ≠ []) : ∃ c t, w = c :: t := by
  rcases w with _ | ⟨c, t⟩
  · exact absurd rfl h
  · exact ⟨c, t, rfl⟩

theorem pidOfLine_fields (ws0 g1 : Nat) (uid pid : List Char) (R : List Char)
    (huid : digitsWord uid) (hpid : digitsWord pid) :
    pidOfLine (spaces ws0 ++ (uid ++ (' ' :: (spaces g1 ++ (pid ++ (' ' :: R)))))) =
      some (digitsToNat pid) := by
  obtain ⟨huid1, huid2⟩ := huid
  obtain ⟨hpid1, hpid2⟩ := hpid
  obtain ⟨u0, u', hu0⟩ := nonempty_cons huid1
  obtain ⟨p0, p', hp0⟩ := nonempty_cons hpid1
  have hu0s : isPySpace u0 = false := tok_no_space (huid2 u0 (by simp [hu0])).2.1
  have hp0s : isPySpace p0 = false := tok_no_space (hpid2 p0 (by simp [hp0])).2.1
  have huD : ∀ c ∈ uid, Char.isDigit c = true := fun c hc => (huid2 c hc).1
  have hpD : ∀ c ∈ pid, Char.isDigit c = true := fun c hc => (hpid2 c hc).1
  have hspd : Char.isDigit ' ' = false := by decide
  have e1 : (spaces ws0 ++ (uid ++ (' ' :: (spaces g1 ++ (pid ++ (' ' :: R)))))).dropWhile
      isPySpace = uid ++ (' ' :: (spaces g1 ++ (pid ++ (' ' :: R)))) := by
    rw [dropWhile_append_all _ _ _ (spaces_all_pyspace ws0), hu0, List.cons_append,
      List.dropWhile_cons]
    simp [hu0s]
  have e2 : (uid ++ (' ' :: (spaces g1 ++ (pid ++ (' ' :: R))))).takeWhile Char.isDigit
      = uid := by
    rw [takeWhile_append_all _ _ _ huD, List.takeWhile_cons, hspd]
    simp
  have e3 : (uid ++ (' ' :: (spaces g1 ++ (pid ++ (' ' :: R))))).dropWhile Char.isDigit
      = ' ' :: (spaces g1 ++ (pid ++ (' ' :: R))) := by
    rw [dropWhile_append_all _ _ _ huD, List.dropWhile_cons, hspd]
    simp
  have e4 : ((' ' :: (spaces g1 ++ (pid ++ (' ' :: R)))).takeWhile isPySpace).isEmpty
      = false := by
    rw [List.takeWhile_cons]
    rfl
  have e5 : (' ' :: (spaces g1 ++ (pid ++ (' ' :: R)))).dropWhile isPySpace
      = pid ++ (' ' :: R) := by
    rw [List.dropWhile_cons]
    have : isPySpace ' ' = true := rfl
    rw [this]
    simp only [if_true]
    rw [dropWhile_append_all _ _ _ (spaces_all_pyspace g1), hp0, List.cons_append,
      List.dropWhile_cons]
    simp [hp0s]
  have e6 : (pid ++ (' ' :: R)).takeWhile Char.isDigit = pid := by
    rw [takeWhile_append_all _ _ _ hpD, List.takeWhile_cons, hspd]
    simp
  have hue : uid.isEmpty = false := by
    rw [hu0]
    rfl
  have hpe : pid.isEmpty = false := by
    rw [hp0]
    rfl
  unfold pidOfLine
  simp only [e1, e2, e3, e4, e5, e6, hue, hpe]
  rfl

theorem containsSub_cons_of (needle : List Char) (c : Char) (l : List Char)
    (h : containsSub needle l = true) : containsSub needle (c :: l) = true := by
  rw [containsSub, h, Bool.or_true]

theorem containsSub_append_left (needle a b : List Char)
    (h : containsSub needle b = true) : containsSub needle (a ++ b) = true := by
  induction a with
  | nil => exact h
  | cons c cs ih => exact containsSub_cons_of needle c (cs ++ b) ih

theorem containsSub_here (needle b : List Char) :
    containsSub needle (needle ++ b) = true := by
  rcases hn : needle ++ b with _ | ⟨c, rest⟩
  · rcases needle with _ | _
    · rfl
    · simp at hn
  · have hpre : needle.isPrefixOf (c :: rest) = true := by
      rw [← hn]
      exact List.isPrefixOf_iff_prefix.mpr ⟨b, rfl⟩
    rw [containsSub, hpre, Bool.true_or]

theorem findEndpoints_mkPsLine (ws0 g1 g2 gs gL g3 gf : Nat) (uid pid : List Char)
    (args1 args2 : List (List Char × Nat)) (lip lport rip rport server : List Char)
    (huid : digitsWord uid) (hpid : digitsWord pid)
    (hargs1 : ∀ e ∈ args1, argWord e)
    (hlip : tokWord lip) (hlport : digitsWord lport)
    (hrip : tokWord rip) (hrport : digitsWord rport) :
    findEndpoints
        (mkPsLine ws0 uid g1 pid g2 gs args1 gL lip lport rip rport g3 args2 gf server) =
      (lip ++ ':' :: lport) :: (rip ++ ':' :: rport) ::
        findEndpoints (' ' :: (spaces g3 ++ (wordsJoin args2 ++
          ('-' :: 'f' :: (spaces (gf + 1) ++ server))))) := by
  unfold mkPsLine
  rw [findEndpoints_skip_spaces,
    findEndpoints_skip_word uid _ (fun c hc => (huid.2 c hc).2.1),
    findEndpoints_skip_spaces,
    findEndpoints_skip_word pid _ (fun c hc => (hpid.2 c hc).2.1),
    findEndpoints_skip_spaces,
    findEndpoints_skip_word ['s', 's', 'h'] _ (by decide),
    findEndpoints_skip_spaces,
    findEndpoints_skip_wordsJoin args1 _ (fun e he => (hargs1 e he).1),
    findEndpoints_skip_word ['-', 'L'] _ (by decide),
    findEndpoints_skip_spaces,
    findEndpoints_blob lip lport rip rport _ hlip hlport hrip hrport]

theorem findServer_mkPsLine (ws0 g1 g2 gs gL g3 gf : Nat) (uid pid : List Char)
    (args1 args2 : List (List Char × Nat)) (lip lport rip rport server : List Char)
    (huid : digitsWord uid) (hpid : digitsWord pid)
    (hargs1 : ∀ e ∈ args1, argWord e) (hargs2 : ∀ e ∈ args2, argWord e)
    (hlip : tokWord lip) (hlport : digitsWord lport)
    (hrip : tokWord rip) (hrport : digitsWord rport)
    (hserver : server ≠ []) (hserverns : ∀ c ∈ server, isPySpace c = false) :
    findServer
        (mkPsLine ws0 uid g1 pid g2 gs args1 gL lip lport rip rport g3 args2 gf server) =
      some server := by
  have hdig_ns : ∀ (w : List Char), (∀ c ∈ w, Char.isDigit c = true ∧ isTokChar c = true ∧
      c ≠ 'f') → ∀ c ∈ w, isPySpace c = false :=
    fun w hw c hc => tok_no_space (hw c hc).2.1
  have hdig_df : ∀ (w : List Char), (∀ c ∈ w, Char.isDigit c = true ∧ isTokChar c = true ∧
      c ≠ 'f') → endsWithDashF w = false :=
    fun w hw => ewdf_false_of_ne_f w (fun c hc => (hw c hc).2.2)
  have hcolon_ns : ∀ (w : List Char), (∀ c ∈ w, isPySpace c = false) →
      ∀ c ∈ ':' :: w, isPySpace c = false := by
    intro w hw c hc
    rcases List.mem_cons.mp hc with h | h
    · rw [h]
      rfl
    · exact hw c h
  have h_lip : ∀ c ∈ lip, isPySpace c = false := fun c hc => tok_no_space (hlip.2 c hc)
  have h_lport : ∀ c ∈ ':' :: lport, isPySpace c = false :=
    hcolon_ns _ (hdig_ns lport hlport.2)
  have h_rip : ∀ c ∈ ':' :: rip, isPySpace c = false :=
    hcolon_ns _ (fun c hc => tok_no_space (hrip.2 c hc))
  have h_rport : ∀ c ∈ ':' :: rport, isPySpace c = false :=
    hcolon_ns _ (hdig_ns rport hrport.2)
  have hblob_ns : ∀ c ∈ ((lip ++ ':' :: lport) ++ ':' :: rip) ++ ':' :: rport,
      isPySpace c = false :=
    no_space_append (no_space_append (no_space_append h_lip h_lport) h_rip) h_rport
  have hblob_df : endsWithDashF (((lip ++ ':' :: lport) ++ ':' :: rip) ++ ':' :: rport)
      = false := by
    rw [ewdf_append _ _ (by
      rcases nonempty_cons hrport.1 with ⟨c, t, hct⟩
      rw [hct]
      simp)]
    apply ewdf_false_of_ne_f
    intro c hc
    rcases List.mem_cons.mp hc with h | h
    · rw [h]
      decide
    · exact (hrport.2 c h).2.2
  unfold mkPsLine
  rw [findServer_skip_spaces,
    findServer_skip_word uid _ (hdig_ns uid huid.2) (hdig_df uid huid.2),
    findServer_skip_spaces,
    findServer_skip_word pid _ (hdig_ns pid hpid.2) (hdig_df pid hpid.2),
    findServer_skip_spaces,
    findServer_skip_word ['s', 's', 'h'] _ (by decide) (by decide),
    findServer_skip_spaces,
    findServer_skip_wordsJoin args1 _ hargs1,
    findServer_skip_word ['-', 'L'] _ (by decide) (by decide),
    findServer_skip_spaces,
    findServer_skip_word (((lip ++ ':' :: lport) ++ ':' :: rip) ++ ':' :: rport) _
      hblob_ns hblob_df,
    findServer_skip_spaces,
    findServer_skip_wordsJoin args2 _ hargs2,
    findServer_hit gf server hserver hserverns]

/-! ### Kill-loop lemmas -/

theorem killLoop_all_ok (killOk : Nat → Bool) (l : List (Nat × String))
    (hp : ∀ e ∈ l, exceptOk (parseTunnelLine e.2) = true)
    (hk : ∀ p, killOk p = true) :
    killLoop killOk l = (l.map (fun e => killCmd e.1), .ok l.length) := by
  induction l with
  | nil => rfl
  | cons e rest ih =>
    have he := hp e (List.mem_cons_self e rest)
    rcases hv : parseTunnelLine e.2 with err | v
    · rw [hv] at he
      simp [exceptOk] at he
    · simp only [killLoop, hv, hk e.1, if_true]
      rw [ih (fun x hx => hp x (List.mem_cons_of_mem e hx))]
      simp [Except.map]

theorem killLoop_abort (killOk : Nat → Bool) (good : List (Nat × String))
    (e : Nat × String) (rest : List (Nat × String)) (err : PyError)
    (hp : ∀ g ∈ good, exceptOk (parseTunnelLine g.2) = true)
    (hk : ∀ p, killOk p = true)
    (hbad : parseTunnelLine e.2 = .error err) :
    killLoop killOk (good ++ e :: rest) =
      (good.map (fun g => killCmd g.1), .error err) := by
  induction good with
  | nil =>
    rw [List.nil_append]
    simp [killLoop, hbad]
  | cons g gs ih =>
    have hg := hp g (List.mem_cons_self g gs)
    rcases hv : parseTunnelLine g.2 with err2 | v
    · rw [hv] at hg
      simp [exceptOk] at hg
    · rw [List.cons_append]
      simp only [killLoop, hv, hk g.1, if_true]
      rw [ih (fun x hx => hp x (List.mem_cons_of_mem g hx))]
      simp [Except.map]

/-! ### Claim C8 -/

/-- C8: on a process table in which no line passes the SSH-forward filters
(`ssh`, `-L`, the PID pattern, and the bind-endpoint filter string),
`do_terminate_tunnels` reports "No existing SSH tunnels found" as a
notification (not an error), returns with zero termination attempts, raises
nothing, and issues no command at all — in particular no kill command and no
sudo prompt. -/
theorem C8_no_match_noop (ps : String) (sudoOk : Bool) (killOk : Nat → Bool)
    (ip port : Option String)
    (h : matchedLines ps (specificLoopback ip port) = []) :
    do_terminate_tunnels ps sudoOk killOk ip port =
      ⟨[], ["No existing SSH tunnels found"], .ok 0⟩ := by
  unfold do_terminate_tunnels tunnelPIDs
  rw [h]
  rfl

set_option maxRecDepth 200000 in
/-- C8 witness: a plain `launchd` process-table line matches nothing and the
operation is a no-op reporting zero tunnels. -/
theorem C8_witness :
    matchedLines "root 1 0 0 10:00 ? 0:00 /sbin/launchd" (specificLoopback none none) = [] ∧
    do_terminate_tunnels "root 1 0 0 10:00 ? 0:00 /sbin/launchd" true
        (fun _ => true) none none =
      ⟨[], ["No existing SSH tunnels found"], .ok 0⟩ :=
  ⟨by decide, C8_no_match_noop _ true (fun _ => true) none none (by decide)⟩

/-! ### Claim C1 -/

set_option maxRecDepth 200000 in
/-- C1 counterexample: on the three-PID table `ps3` with the kill of PID 222
failing, the kill of PID 333 is never attempted — the failure aborts the
remaining kills with a `CalledProcessError`, contradicting the claim that all
three kills are attempted and that a count of 3 is reported. -/
theorem C1_counterexample :
    (do_terminate_tunnels ps3 true (fun p => p != 222) none none).trace =
      [sudoPromptCmd, killCmd 111, killCmd 222] ∧
    killCmd 333 ∉ (do_terminate_tunnels ps3 true (fun p => p != 222) none none).trace ∧
    (do_terminate_tunnels ps3 true (fun p => p != 222) none none).result =
      .error (.calledProcessError (killCmd 222)) := by
  refine ⟨by decide, by decide, by decide⟩

set_option maxRecDepth 200000 in
/-- C1 (amended): when every kill exits zero, `do_terminate_tunnels` issues
one `sudo kill -9` per matched PID individually, in table order, after a
single sudo prompt, and completes with a count equal to the number of matched
PIDs; but a kill failure (non-zero exit) raises `CalledProcessError` and
aborts the kill attempts for the remaining PIDs: on the table with PIDs 111,
222, 333 and the kill of 222 failing, kills are attempted only for 111 and
222, not for 333. -/
theorem C1_kills_each_pid (ps : String) (killOk : Nat → Bool)
    (hk : ∀ p, killOk p = true)
    (hparse : ∀ e ∈ tunnelPIDs ps ":", exceptOk (parseTunnelLine e.2) = true)
    (hne : tunnelPIDs ps ":" ≠ []) :
    do_terminate_tunnels ps true killOk none none =
      ⟨sudoPromptCmd :: (tunnelPIDs ps ":").map (fun e => killCmd e.1),
        ["Tunnels terminated"], .ok (tunnelPIDs ps ":").length⟩ ∧
    (do_terminate_tunnels ps3 true (fun p => p != 222) none none).trace =
      [sudoPromptCmd, killCmd 111, killCmd 222] ∧
    (do_terminate_tunnels ps3 true (fun p => p != 222) none none).result =
      .error (.calledProcessError (killCmd 222)) := by
  refine ⟨?_, by decide, by decide⟩
  have hfilt : specificLoopback none none = ":" := rfl
  have hie : (tunnelPIDs ps ":").isEmpty = false := by
    rcases hc : tunnelPIDs ps ":" with _ | _
    · exact absurd hc hne
    · rfl
  unfold do_terminate_tunnels
  simp only [hfilt, hie, Bool.not_true, Bool.false_eq_true, if_false]
  rw [killLoop_all_ok killOk _ hparse hk]

set_option maxRecDepth 200000 in
/-- C1 witness: the amended statement at the concrete table `ps3` with every
kill succeeding. -/
theorem C1_witness :
    do_terminate_tunnels ps3 true (fun _ => true) none none =
      ⟨sudoPromptCmd :: (tunnelPIDs ps3 ":").map (fun e => killCmd e.1),
        ["Tunnels terminated"], .ok (tunnelPIDs ps3 ":").length⟩ ∧
    (do_terminate_tunnels ps3 true (fun p => p != 222) none none).trace =
      [sudoPromptCmd, killCmd 111, killCmd 222] ∧
    (do_terminate_tunnels ps3 true (fun p => p != 222) none none).result =
      .error (.calledProcessError (killCmd 222)) :=
  C1_kills_each_pid ps3 (fun _ => true) (fun _ => rfl) (by decide) (by decide)

/-! ### Claim C2 -/

set_option maxRecDepth 200000 in
/-- C2 counterexample: on `psBad`, whose first coarse-matched line has no
well-formed endpoint pair, the second matched line (PID 555) is in the PID
table but its kill is never attempted: the malformed line raises `ValueError`
and aborts processing, contradicting the claimed skip-and-continue
(fail-open) behavior. -/
theorem C2_counterexample :
    (555, "  1 555 ssh -L 127.0.0.2:6001:10.0.0.5:6001 -N -f hostY") ∈
      tunnelPIDs psBad ":" ∧
    (do_terminate_tunnels psBad true (fun _ => true) none none).result =
      .error (.valueError "not enough values to unpack (expected 2)") ∧
    killCmd 555 ∉ (do_terminate_tunnels psBad true (fun _ => true) none none).trace := by
  refine ⟨by decide, by decide, by decide⟩

/-- C2 (amended): a line that passes the coarse filters but lacks two
well-formed `ip:port` endpoint tokens (or a well-formed `-f` server token)
raises when the kill loop reaches it, aborting the processing of all
remaining matched lines: if the PID table is `good ++ e :: rest` with every
line of `good` parseable and `e` malformed, the operation fails with the
parse error and the trace holds only the sudo prompt and the kills of
`good` — nothing for `rest`.  (The coarse filtering itself never raises;
only the per-line extraction inside the kill loop does.) -/
theorem C2_malformed_aborts (ps : String) (killOk : Nat → Bool)
    (good : List (Nat × String)) (e : Nat × String) (rest : List (Nat × String))
    (err : PyError)
    (hsplit : tunnelPIDs ps ":" = good ++ e :: rest)
    (hp : ∀ g ∈ good, exceptOk (parseTunnelLine g.2) = true)
    (hk : ∀ p, killOk p = true)
    (hbad : parseTunnelLine e.2 = .error err) :
    (do_terminate_tunnels ps true killOk none none).result = .error err ∧
    (do_terminate_tunnels ps true killOk none none).trace =
      sudoPromptCmd :: good.map (fun g => killCmd g.1) := by
  have hfilt : specificLoopback none none = ":" := rfl
  have hie : (tunnelPIDs ps ":").isEmpty = false := by
    rw [hsplit]
    rcases good with _ | _
    · rfl
    · rfl
  unfold do_terminate_tunnels
  simp only [hfilt, hie, Bool.not_true, Bool.false_eq_true, if_false]
  rw [hsplit, killLoop_abort killOk good e rest err hp hk hbad]
  simp

set_option maxRecDepth 200000 in
/-- C2 witness: the amended statement at the concrete table `psBad` (the
malformed line first, so no kill at all is attempted). -/
theorem C2_witness :
    (do_terminate_tunnels psBad true (fun _ => true) none none).result =
      .error (.valueError "not enough values to unpack (expected 2)") ∧
    (do_terminate_tunnels psBad true (fun _ => true) none none).trace =
      sudoPromptCmd :: ([] : List (Nat × String)).map (fun g => killCmd g.1) :=
  C2_malformed_aborts psBad (fun _ => true) []
    (444, "  1 444 ssh -L 127.0.0.9: -f hostX")
    [(555, "  1 555 ssh -L 127.0.0.2:6001:10.0.0.5:6001 -N -f hostY")]
    (.valueError "not enough values to unpack (expected 2)")
    (by decide) (by decide) (fun _ => rfl) (by decide)

/-! ### Loopback-verification helpers -/

theorem strStartsWith_ne_empty {ip : String} (h : strStartsWith "127." ip = true) :
    ¬(ip = "") := by
  intro he
  rw [he] at h
  exact absurd h (by decide)

theorem verify_found (out ip : String) (sOk aOk : Bool)
    (h1 : strStartsWith "127." ip = true) (h2 : ip ≠ "127.0.0.1")
    (h3 : aliasFound out (pyStrip ip) = true) :
    do_verify_loopback_address out sOk aOk ip false = ⟨[ifconfigCmd], [], .ok 0⟩ := by
  unfold do_verify_loopback_address
  rw [if_neg (strStartsWith_ne_empty h1), h1]
  simp only [Bool.not_true, Bool.false_eq_true, if_false, Bool.not_false, Bool.true_and,
    decide_eq_true_eq]
  rw [if_neg h2, if_pos h3]

theorem verify_notfound_trace (out ip : String) (aOk : Bool)
    (h1 : strStartsWith "127." ip = true) (h2 : ip ≠ "127.0.0.1")
    (h3 : aliasFound out (pyStrip ip) = false) :
    (do_verify_loopback_address out true aOk ip false).trace =
      [ifconfigCmd, sudoPromptCmd, aliasCmd (pyStrip ip)] := by
  unfold do_verify_loopback_address
  rw [if_neg (strStartsWith_ne_empty h1), h1]
  simp only [Bool.not_true, Bool.false_eq_true, if_false, Bool.not_false, Bool.true_and,
    decide_eq_true_eq]
  rw [if_neg h2, if_neg (by rw [h3]; exact Bool.false_ne_true)]
  cases aOk
  · rfl
  · rfl

theorem aliasCmd_ne_ifconfigCmd (x : String) : aliasCmd x ≠ ifconfigCmd := by
  intro h
  have h1 : (aliasCmd x).toList.take 1 = ['s'] := rfl
  rw [h] at h1
  exact absurd h1 (by decide)

/-! ### Claim C6 -/

/-- C6: `do_verify_loopback_address` is idempotent for an already-aliased
address: for every valid custom loopback address (prefix `127.`, not the
primary `127.0.0.1`) that the interface-configuration text already contains
(per the code's own word-bounded search), the call succeeds after only the
`ifconfig -a` query — no alias-creation command and no sudo prompt is issued,
whatever the exit statuses of those commands would have been.  Since the call
mutates nothing and is a pure function of the interface text, a second call
with the same text and address behaves identically, so calling it twice
issues no alias-creation command on the second call. -/
theorem C6_already_aliased_idempotent (out ip : String) (sudoOk aliasOk : Bool)
    (h1 : strStartsWith "127." ip = true) (h2 : ip ≠ "127.0.0.1")
    (h3 : aliasFound out (pyStrip ip) = true) :
    do_verify_loopback_address out sudoOk aliasOk ip false = ⟨[ifconfigCmd], [], .ok 0⟩ ∧
    aliasCmd (pyStrip ip) ∉ (do_verify_loopback_address out sudoOk aliasOk ip false).trace ∧
    sudoPromptCmd ∉ (do_verify_loopback_address out sudoOk aliasOk ip false).trace := by
  have h := verify_found out ip sudoOk aliasOk h1 h2 h3
  refine ⟨h, ?_, ?_⟩
  · rw [h]
    intro hmem
    exact absurd (List.mem_singleton.mp hmem) (aliasCmd_ne_ifconfigCmd (pyStrip ip))
  · rw [h]
    intro hmem
    exact absurd (List.mem_singleton.mp hmem) (by decide)

/-- C6 witness: address `127.0.0.2` already aliased in the interface text. -/
theorem C6_witness :
    do_verify_loopback_address "inet 127.0.0.2 netmask 0xff000000" true true
        "127.0.0.2" false = ⟨[ifconfigCmd], [], .ok 0⟩ ∧
    aliasCmd (pyStrip "127.0.0.2") ∉
      (do_verify_loopback_address "inet 127.0.0.2 netmask 0xff000000" true true
        "127.0.0.2" false).trace ∧
    sudoPromptCmd ∉
      (do_verify_loopback_address "inet 127.0.0.2 netmask 0xff000000" true true
        "127.0.0.2" false).trace :=
  C6_already_aliased_idempotent "inet 127.0.0.2 netmask 0xff000000" "127.0.0.2"
    true true (by decide) (by decide) (by decide)

/-! ### Claim C7 -/

/-- C7: `do_verify_loopback_address` (with no override) rejects with an
`AssertionError`, before issuing any command, every address that does not
match the loopback prefix `127.` and also the literal primary loopback
address `127.0.0.1`; consequently `do_execute_port_redirect` on a
`source_address` of `127.0.0.1` with no override is rejected before any
redirect command is executed (its trace is empty). -/
theorem C7_rejects_primary_loopback :
    (∀ (out ip : String) (sOk aOk : Bool), strStartsWith "127." ip = false →
      ∃ m, do_verify_loopback_address out sOk aOk ip false =
        ⟨[], [], .error (.assertionError m)⟩) ∧
    (∀ (out : String) (sOk aOk : Bool),
      do_verify_loopback_address out sOk aOk "127.0.0.1" false =
        ⟨[], [], .error (.assertionError "Custom loopback IP is required. As a precaution, this script requires a loopback IP other than 127.0.0.1")⟩) ∧
    (∀ (out sp ta tp : String) (sOk aOk : Bool),
      do_execute_port_redirect out sOk aOk "127.0.0.1" sp ta tp =
        ⟨[], [], .error (.assertionError "Custom loopback IP is required. As a precaution, this script requires a loopback IP other than 127.0.0.1")⟩) := by
  refine ⟨?_, fun out sOk aOk => rfl, fun out sp ta tp sOk aOk => rfl⟩
  intro out ip sOk aOk h
  by_cases hip : ip = ""
  · refine ⟨"No loopback address provided", ?_⟩
    rw [hip]
    rfl
  · refine ⟨"Invalid loopback address (" ++ ip ++ ")", ?_⟩
    unfold do_verify_loopback_address
    rw [if_neg hip, h]
    rfl

/-- C7 witness: instances of the rejection, at a non-loopback address and at
the primary loopback address. -/
theorem C7_witness :
    (∃ m, do_verify_loopback_address "" true true "10.0.0.1" false =
      ⟨[], [], .error (.assertionError m)⟩) ∧
    do_verify_loopback_address "" true true "127.0.0.1" false =
      ⟨[], [], .error (.assertionError "Custom loopback IP is required. As a precaution, this script requires a loopback IP other than 127.0.0.1")⟩ ∧
    do_execute_port_redirect "" true true "127.0.0.1" "80" "10.1.1.1" "8080" =
      ⟨[], [], .error (.assertionError "Custom loopback IP is required. As a precaution, this script requires a loopback IP other than 127.0.0.1")⟩ :=
  ⟨C7_rejects_primary_loopback.1 "" "10.0.0.1" true true (by decide),
    C7_rejects_primary_loopback.2.1 "" true true,
    C7_rejects_primary_loopback.2.2 "" "80" "10.1.1.1" "8080" true true⟩

/-! ### Claim C9 -/

/-- C9: for a valid, already-aliased source address,
`do_execute_port_redirect` issues exactly one piped shell command after the
`ifconfig -a` query; that command echoes exactly one NAT rule of the form
`rdr pass inet proto tcp from any to SA port SP -> TA port TP` into
`pfctl -ef -`, the firewall executor's load-rules-from-standard-input-and-
enable mode; and (per the spec's model of `pfctl`, which is outside this
repository) loading replaces the entire active rule set, so the resulting
rule set is the single new rule whatever was active before — a second
redirect discards the first. -/
theorem C9_redirect_rule_replaces (out : String) (sOk aOk : Bool)
    (sa sp ta tp : String) (prev : List String)
    (h1 : strStartsWith "127." sa = true) (h2 : sa ≠ "127.0.0.1")
    (h3 : aliasFound out (pyStrip sa) = true) :
    do_execute_port_redirect out sOk aOk sa sp ta tp =
      ⟨[ifconfigCmd, redirectCmd sa sp ta tp],
        ["Port Redirection Enabled:\n\n" ++ sa ++ ":" ++ sp ++ " --> " ++ ta ++ ":" ++ tp],
        .ok 0⟩ ∧
    redirectCmd sa sp ta tp =
      "echo \"" ++ redirectRule sa sp ta tp ++ "\" | sudo -p \"sudo password: \" pfctl -ef -" ∧
    redirectRule sa sp ta tp =
      "rdr pass inet proto tcp from any to " ++ sa ++ " port " ++ sp ++ " -> " ++
        ta ++ " port " ++ tp ∧
    pfctlLoadFromStdin prev [redirectRule sa sp ta tp] = [redirectRule sa sp ta tp] := by
  refine ⟨?_, rfl, rfl, rfl⟩
  unfold do_execute_port_redirect
  rw [verify_found out sa sOk aOk h1 h2 h3]
  rfl

/-- C9 witness: the redirect scenario `127.0.0.2:80 -> 10.1.1.1:8080` over a
previously loaded rule set. -/
theorem C9_witness :
    do_execute_port_redirect "inet 127.0.0.2 x" true true "127.0.0.2" "80"
        "10.1.1.1" "8080" =
      ⟨[ifconfigCmd, redirectCmd "127.0.0.2" "80" "10.1.1.1" "8080"],
        ["Port Redirection Enabled:\n\n" ++ "127.0.0.2" ++ ":" ++ "80" ++ " --> " ++
          "10.1.1.1" ++ ":" ++ "8080"],
        .ok 0⟩ ∧
    redirectCmd "127.0.0.2" "80" "10.1.1.1" "8080" =
      "echo \"" ++ redirectRule "127.0.0.2" "80" "10.1.1.1" "8080" ++
        "\" | sudo -p \"sudo password: \" pfctl -ef -" ∧
    redirectRule "127.0.0.2" "80" "10.1.1.1" "8080" =
      "rdr pass inet proto tcp from any to " ++ "127.0.0.2" ++ " port " ++ "80" ++
        " -> " ++ "10.1.1.1" ++ " port " ++ "8080" ∧
    pfctlLoadFromStdin ["old rule"] [redirectRule "127.0.0.2" "80" "10.1.1.1" "8080"] =
      [redirectRule "127.0.0.2" "80" "10.1.1.1" "8080"] :=
  C9_redirect_rule_replaces "inet 127.0.0.2 x" true true "127.0.0.2" "80" "10.1.1.1"
    "8080" ["old rule"] (by decide) (by decide) (by decide)

/-! ### Claim C10 -/

/-- C10: for a valid custom loopback address that is not yet aliased (and a
succeeding sudo prompt), the alias-creation command issued by
`do_verify_loopback_address` is the string `sudo ifconfig lo0 alias $`
followed by the (stripped) address — with a literal dollar sign immediately
before the address — and therefore is never the command
`sudo ifconfig lo0 alias ` followed by the address itself. -/
theorem C10_alias_command_has_dollar (out ip : String) (aOk : Bool)
    (h1 : strStartsWith "127." ip = true) (h2 : ip ≠ "127.0.0.1")
    (h3 : aliasFound out (pyStrip ip) = false) :
    (do_verify_loopback_address out true aOk ip false).trace =
      [ifconfigCmd, sudoPromptCmd, aliasCmd (pyStrip ip)] ∧
    aliasCmd (pyStrip ip) = "sudo ifconfig lo0 alias $" ++ pyStrip ip ∧
    aliasCmd (pyStrip ip) ≠ "sudo ifconfig lo0 alias " ++ pyStrip ip := by
  refine ⟨verify_notfound_trace out ip aOk h1 h2 h3, rfl, ?_⟩
  intro h
  have hl := congrArg String.length h
  unfold aliasCmd at hl
  rw [String.length_append, String.length_append] at hl
  have c1 : ("sudo ifconfig lo0 alias $" : String).length = 25 := rfl
  have c2 : ("sudo ifconfig lo0 alias " : String).length = 24 := rfl
  rw [c1, c2] at hl
  omega

/-- C10 witness: address `127.0.0.2` absent from an empty interface text. -/
theorem C10_witness :
    (do_verify_loopback_address "" true true "127.0.0.2" false).trace =
      [ifconfigCmd, sudoPromptCmd, aliasCmd (pyStrip "127.0.0.2")] ∧
    aliasCmd (pyStrip "127.0.0.2") = "sudo ifconfig lo0 alias $" ++ pyStrip "127.0.0.2" ∧
    aliasCmd (pyStrip "127.0.0.2") ≠ "sudo ifconfig lo0 alias " ++ pyStrip "127.0.0.2" :=
  C10_alias_command_has_dollar "" "127.0.0.2" true (by decide) (by decide) (by decide)

/-! ### Claim C5 -/

set_option maxRecDepth 400000 in
/-- C5: the SSH option string is composed exactly as claimed: empty
`extra_ssh_options` become the default identity-key option plus the
host-key-checking bypass; non-empty options already containing `-i` (the
code's test for "already designates an identity file") are left unchanged, so
a supplied identity wins over the configured default key; otherwise the
default identity-key option is prepended.  For the `db` scenario
configuration, the tunnel command issued (the last command of the trace) is
`sudo ` followed by exactly the claimed
`ssh -i /keys/id -o StrictHostKeyChecking=no -Y -L
127.0.0.2:5432:10.0.0.5:5432 -N -f alice@bastion.example.com -p 22`, and the
run succeeds. -/
theorem C5_ssh_options_and_command (key opts : String) :
    (opts = "" → composeSshOptions key opts =
      "-i " ++ key ++ " -o StrictHostKeyChecking=no") ∧
    (opts ≠ "" → strContains "-i" opts = true → composeSshOptions key opts = opts) ∧
    (opts ≠ "" → strContains "-i" opts = false →
      composeSshOptions key opts = "-i " ++ key ++ " " ++ opts) ∧
    (do_execute_ssh_tunnel dbWorld dbVars dbConfig).trace.getLast? =
      some ("sudo " ++ "ssh -i /keys/id -o StrictHostKeyChecking=no -Y -L 127.0.0.2:5432:10.0.0.5:5432 -N -f alice@bastion.example.com -p 22") ∧
    (do_execute_ssh_tunnel dbWorld dbVars dbConfig).result = .ok 0 := by
  refine ⟨?_, ?_, ?_, by decide, by decide⟩
  · intro h
    unfold composeSshOptions
    rw [if_pos h]
  · intro h hi
    unfold composeSshOptions
    rw [if_neg h, hi]
    simp
  · intro h hi
    unfold composeSshOptions
    rw [if_neg h, hi]
    simp

set_option maxRecDepth 400000 in
/-- C5 witness: instances of the composition rules and the scenario command. -/
theorem C5_witness :
    composeSshOptions "/keys/id" "" = "-i " ++ "/keys/id" ++ " -o StrictHostKeyChecking=no" ∧
    composeSshOptions "/keys/id" "-i /other/key -C" = "-i /other/key -C" ∧
    composeSshOptions "/keys/id" "-C" = "-i " ++ "/keys/id" ++ " " ++ "-C" ∧
    (do_execute_ssh_tunnel dbWorld dbVars dbConfig).trace.getLast? =
      some ("sudo " ++ "ssh -i /keys/id -o StrictHostKeyChecking=no -Y -L 127.0.0.2:5432:10.0.0.5:5432 -N -f alice@bastion.example.com -p 22") ∧
    (do_execute_ssh_tunnel dbWorld dbVars dbConfig).result = .ok 0 :=
  ⟨(C5_ssh_options_and_command "/keys/id" "").1 rfl,
    (C5_ssh_options_and_command "/keys/id" "-i /other/key -C").2.1 (by decide) (by decide),
    (C5_ssh_options_and_command "/keys/id" "-C").2.2.1 (by decide) (by decide),
    (C5_ssh_options_and_command "/keys/id" "").2.2.2.1,
    (C5_ssh_options_and_command "/keys/id" "").2.2.2.2⟩

/-! ### Claim C3 -/

set_option maxRecDepth 400000 in
/-- C3 counterexample: for the loopback-server configuration `cfgLoop22`
(ssh_port unset, so the Python value defaults to the integer 22), the
validation rejection does NOT happen before any external command: the sudo
session prompt `sudo -v` is executed first, so the trace at rejection is
`[sudoPromptCmd]`, not empty.  Moreover a configuration that explicitly sets
`ssh_port` to the string `"22"` is not rejected at all (Python compares the
string `"22"` with the integer `22`, which are unequal), and the tunnel
command is issued. -/
theorem C3_counterexample :
    (do_execute_ssh_tunnel w22 ⟨"bob", "/k"⟩ cfgLoop22).trace = [sudoPromptCmd] ∧
    (do_execute_ssh_tunnel w22 ⟨"bob", "/k"⟩ cfgLoop22).result =
      .error (.assertionError "Error: SSH server is a loopback IP, and the port is left at 22. This will create a tunnel to your own machine and won't work!") ∧
    (do_execute_ssh_tunnel w22 ⟨"bob", "/k"⟩ cfgLoop22str).result = .ok 0 := by
  refine ⟨by decide, by decide, by decide⟩

/-- C3 (amended): for every configuration whose effective `ssh_server_port`
is the defaulted integer 22 (`ssh_port` unset or empty) and whose
`ssh_server` matches the loopback prefix `127.`, `do_execute_ssh_tunnel`
rejects with an `AssertionError` before any tunnel-related command executes —
the only external command issued before the rejection is the sudo session
prompt, so the trace at rejection is exactly `[sudoPromptCmd]`.  (A
configuration that sets `ssh_port` to the string `"22"` escapes the check,
because Python's `!=` distinguishes the string from the integer.) -/
theorem C3_loopback_port22_rejected (w : World) (v : BitBarVars) (cfg : TunnelConfig)
    (hs : w.sudoOk = true)
    (hp : effSshPort cfg.ssh_port = .int22)
    (h127 : strStartsWith "127." (pyStr cfg.ssh_server) = true) :
    (∃ m, (do_execute_ssh_tunnel w v cfg).result = .error (.assertionError m)) ∧
    (do_execute_ssh_tunnel w v cfg).trace = [sudoPromptCmd] := by
  unfold do_execute_ssh_tunnel
  rw [hs]
  simp only [Bool.not_true, Bool.false_eq_true, if_false]
  have hcond : (!(portNe22 (effSshPort cfg.ssh_port) ||
      !strStartsWith "127." (pyStr cfg.ssh_server))) = true := by
    rw [hp, h127]
    rfl
  by_cases a1 : pyStr cfg.name = ""
  · rw [if_pos a1]
    exact ⟨⟨_, rfl⟩, rfl⟩
  rw [if_neg a1]
  by_cases a2 : pyStr cfg.ssh_server = ""
  · rw [if_pos a2]
    exact ⟨⟨_, rfl⟩, rfl⟩
  rw [if_neg a2]
  by_cases a3 : pyStr cfg.remote_ip = ""
  · rw [if_pos a3]
    exact ⟨⟨_, rfl⟩, rfl⟩
  rw [if_neg a3]
  by_cases a4 : pyStr cfg.remote_port = ""
  · rw [if_pos a4]
    exact ⟨⟨_, rfl⟩, rfl⟩
  rw [if_neg a4]
  by_cases a5 : pyStr cfg.local_address = ""
  · rw [if_pos a5]
    exact ⟨⟨_, rfl⟩, rfl⟩
  rw [if_neg a5]
  by_cases a6 : pyOr (pyStr cfg.local_port) (pyStr cfg.remote_port) = ""
  · rw [if_pos a6]
    exact ⟨⟨_, rfl⟩, rfl⟩
  rw [if_neg a6]
  rw [if_pos hcond]
  exact ⟨⟨_, rfl⟩, rfl⟩

set_option maxRecDepth 400000 in
/-- C3 witness: the amended statement at the concrete configuration
`cfgLoop22`. -/
theorem C3_witness :
    (∃ m, (do_execute_ssh_tunnel w22 ⟨"bob", "/k"⟩ cfgLoop22).result =
      .error (.assertionError m)) ∧
    (do_execute_ssh_tunnel w22 ⟨"bob", "/k"⟩ cfgLoop22).trace = [sudoPromptCmd] :=
  C3_loopback_port22_rejected w22 ⟨"bob", "/k"⟩ cfgLoop22 rfl rfl (by decide)

/-! ### Claim C4 -/

set_option maxRecDepth 200000 in
/-- C4 counterexample: a line of exactly the claimed shape
`"<pid> ... ssh ... -L ip:port:rip:rport ... -f server"` whose leading
integer is the PID is not matched at all: the PID pattern `^\s*\d+\s+(\d+)`
requires two leading integer columns and captures the SECOND one (`ps -ef`
prints UID before PID), so on the claimed single-integer shape `pidOfLine` is
`none` and the table yields no tunnel entry; on a two-column row the
extracted value is the second integer (912), not the leading one (501). -/
theorem C4_counterexample :
    pidOfLine "111 ssh -L 127.0.0.2:443:10.0.0.5:443 -N -f bastion".toList = none ∧
    tunnelPIDs "111 ssh -L 127.0.0.2:443:10.0.0.5:443 -N -f bastion" ":" = [] ∧
    pidOfLine "501 912 ssh -L 127.0.0.2:443:10.0.0.5:443 -N -f bastion".toList =
      some 912 ∧
    (912 : Nat) ≠ 501 := by
  refine ⟨by decide, by decide, by decide, by decide⟩

theorem containsSub_nil_needle (l : List Char) : containsSub [] l = true := by
  cases l
  · rfl
  · rfl

theorem isPrefixOf_extend {n l b : List Char} (h : n.isPrefixOf l = true) :
    n.isPrefixOf (l ++ b) = true := by
  rw [List.isPrefixOf_iff_prefix] at h ⊢
  exact h.trans (List.prefix_append l b)

theorem containsSub_append_right (needle a b : List Char)
    (h : containsSub needle a = true) : containsSub needle (a ++ b) = true := by
  induction a with
  | nil =>
    have hn : needle = [] := by
      rcases hne : needle with _ | _
      · rfl
      · rw [hne] at h
        exact absurd h (by simp [containsSub])
    rw [hn, List.nil_append]
    exact containsSub_nil_needle b
  | cons c rest ih =>
    rw [List.cons_append, containsSub]
    rw [containsSub] at h
    cases hp : needle.isPrefixOf (c :: rest) with
    | true =>
      have hext := isPrefixOf_extend (b := b) hp
      rw [List.cons_append] at hext
      rw [hext]
      rfl
    | false =>
      rw [hp] at h
      simp only [Bool.false_or] at h
      rw [ih h]
      simp

set_option maxRecDepth 4000 in
/-- C4 (amended): on every well-formed `ps -ef` SSH local-forward row — a UID
column, then a PID column, then `ssh`, arbitrary colon-free argument words,
`-L ip:port:rip:rport`, further argument words, and `-f server`, separated by
arbitrary runs of one or more spaces — the row passes the coarse filter of
tunnel discovery, the extracted PID is the SECOND whitespace-separated
integer (the `ps -ef` PID column; the leading integer is the UID), the local
endpoint is the first `ip:port`-shaped token, the remote endpoint the second,
and the SSH server is the token following the `-f` flag.  This holds
independently of the surrounding whitespace widths and of the other argument
words before and after `-L`. -/
theorem C4_extraction (ws0 g1 g2 gs gL g3 gf : Nat) (uid pid : List Char)
    (args1 args2 : List (List Char × Nat)) (lip lport rip rport server : List Char)
    (huid : digitsWord uid) (hpid : digitsWord pid)
    (hargs1 : ∀ e ∈ args1, argWord e) (hargs2 : ∀ e ∈ args2, argWord e)
    (hlip : tokWord lip) (hlport : digitsWord lport)
    (hrip : tokWord rip) (hrport : digitsWord rport)
    (hserver : server ≠ []) (hserverns : ∀ c ∈ server, isPySpace c = false) :
    lineMatches ":"
      ⟨mkPsLine ws0 uid g1 pid g2 gs args1 gL lip lport rip rport g3 args2 gf server⟩
      = true ∧
    pidOfLine
      (mkPsLine ws0 uid g1 pid g2 gs args1 gL lip lport rip rport g3 args2 gf server) =
      some (digitsToNat pid) ∧
    parseTunnelLine
      ⟨mkPsLine ws0 uid g1 pid g2 gs args1 gL lip lport rip rport g3 args2 gf server⟩ =
      .ok (⟨lip ++ ':' :: lport⟩, ⟨rip ++ ':' :: rport⟩, ⟨server⟩) := by
  have hpidline : pidOfLine
      (mkPsLine ws0 uid g1 pid g2 gs args1 gL lip lport rip rport g3 args2 gf server) =
      some (digitsToNat pid) := by
    unfold mkPsLine
    exact pidOfLine_fields ws0 g1 uid pid _ huid hpid
  have hep := findEndpoints_mkPsLine ws0 g1 g2 gs gL g3 gf uid pid args1 args2
    lip lport rip rport server huid hpid hargs1 hlip hlport hrip hrport
  have hsrv := findServer_mkPsLine ws0 g1 g2 gs gL g3 gf uid pid args1 args2
    lip lport rip rport server huid hpid hargs1 hargs2 hlip hlport hrip hrport
    hserver hserverns
  have hparse : parseTunnelLine
      ⟨mkPsLine ws0 uid g1 pid g2 gs args1 gL lip lport rip rport g3 args2 gf server⟩ =
      .ok (⟨lip ++ ':' :: lport⟩, ⟨rip ++ ':' :: rport⟩, ⟨server⟩) := by
    unfold parseTunnelLine
    rw [show (⟨mkPsLine ws0 uid g1 pid g2 gs args1 gL lip lport rip rport g3 args2 gf
        server⟩ : String).toList =
      mkPsLine ws0 uid g1 pid g2 gs args1 gL lip lport rip rport g3 args2 gf server
      from rfl]
    rw [hep, hsrv]
  refine ⟨?_, hpidline, hparse⟩
  have hssh : strContains "ssh"
      ⟨mkPsLine ws0 uid g1 pid g2 gs args1 gL lip lport rip rport g3 args2 gf server⟩
      = true := by
    show containsSub ['s', 's', 'h']
      (mkPsLine ws0 uid g1 pid g2 gs args1 gL lip lport rip rport g3 args2 gf server)
      = true
    unfold mkPsLine
    apply containsSub_append_left
    apply containsSub_append_left
    apply containsSub_cons_of
    apply containsSub_append_left
    apply containsSub_append_left
    apply containsSub_cons_of
    apply containsSub_append_left
    exact containsSub_here ['s', 's', 'h'] _
  have hdL : strContains "-L"
      ⟨mkPsLine ws0 uid g1 pid g2 gs args1 gL lip lport rip rport g3 args2 gf server⟩
      = true := by
    show containsSub ['-', 'L']
      (mkPsLine ws0 uid g1 pid g2 gs args1 gL lip lport rip rport g3 args2 gf server)
      = true
    unfold mkPsLine
    apply containsSub_append_left
    apply containsSub_append_left
    apply containsSub_cons_of
    apply containsSub_append_left
    apply containsSub_append_left
    apply containsSub_cons_of
    apply containsSub_append_left
    apply containsSub_append_left
    apply containsSub_cons_of
    apply containsSub_append_left
    apply containsSub_append_left
    exact containsSub_here ['-', 'L'] _
  have hcolon : strContains ":"
      ⟨mkPsLine ws0 uid g1 pid g2 gs args1 gL lip lport rip rport g3 args2 gf server⟩
      = true := by
    show containsSub [':']
      (mkPsLine ws0 uid g1 pid g2 gs args1 gL lip lport rip rport g3 args2 gf server)
      = true
    unfold mkPsLine
    apply containsSub_append_left
    apply containsSub_append_left
    apply containsSub_cons_of
    apply containsSub_append_left
    apply containsSub_append_left
    apply containsSub_cons_of
    apply containsSub_append_left
    apply containsSub_append_left
    apply containsSub_cons_of
    apply containsSub_append_left
    apply containsSub_append_left
    apply containsSub_append_left
    apply containsSub_cons_of
    apply containsSub_append_left
    apply containsSub_append_right
    apply containsSub_append_right
    apply containsSub_append_right
    apply containsSub_append_left
    exact containsSub_here [':'] lport
  unfold lineMatches
  rw [hssh, hdL, hcolon]
  rw [show (⟨mkPsLine ws0 uid g1 pid g2 gs args1 gL lip lport rip rport g3 args2 gf
      server⟩ : String).toList =
    mkPsLine ws0 uid g1 pid g2 gs args1 gL lip lport rip rport g3 args2 gf server
    from rfl]
  rw [hpidline]
  rfl

set_option maxRecDepth 200000 in
/-- C4 witness: the amended extraction at the concrete row
`"  1 912 ssh -v -L 127.0.0.2:443:10.0.0.5:443 -N -f bastion"`. -/
theorem C4_witness :
    lineMatches ":"
      ⟨mkPsLine 2 ['1'] 0 ['9', '1', '2'] 0 0 [(['-', 'v'], 0)] 0
        ['1', '2', '7', '.', '0', '.', '0', '.', '2'] ['4', '4', '3']
        ['1', '0', '.', '0', '.', '0', '.', '5'] ['4', '4', '3'] 0
        [(['-', 'N'], 0)] 0 ['b', 'a', 's', 't', 'i', 'o', 'n']⟩ = true ∧
    pidOfLine (mkPsLine 2 ['1'] 0 ['9', '1', '2'] 0 0 [(['-', 'v'], 0)] 0
        ['1', '2', '7', '.', '0', '.', '0', '.', '2'] ['4', '4', '3']
        ['1', '0', '.', '0', '.', '0', '.', '5'] ['4', '4', '3'] 0
        [(['-', 'N'], 0)] 0 ['b', 'a', 's', 't', 'i', 'o', 'n']) =
      some (digitsToNat ['9', '1', '2']) ∧
    parseTunnelLine
      ⟨mkPsLine 2 ['1'] 0 ['9', '1', '2'] 0 0 [(['-', 'v'], 0)] 0
        ['1', '2', '7', '.', '0', '.', '0', '.', '2'] ['4', '4', '3']
        ['1', '0', '.', '0', '.', '0', '.', '5'] ['4', '4', '3'] 0
        [(['-', 'N'], 0)] 0 ['b', 'a', 's', 't', 'i', 'o', 'n']⟩ =
      .ok (⟨['1', '2', '7', '.', '0', '.', '0', '.', '2'] ++ ':' :: ['4', '4', '3']⟩,
        ⟨['1', '0', '.', '0', '.', '0', '.', '5'] ++ ':' :: ['4', '4', '3']⟩,
        ⟨['b', 'a', 's', 't', 'i', 'o', 'n']⟩) :=
  C4_extraction 2 0 0 0 0 0 0 ['1'] ['9', '1', '2'] [(['-', 'v'], 0)] [(['-', 'N'], 0)]
    ['1', '2', '7', '.', '0', '.', '0', '.', '2'] ['4', '4', '3']
    ['1', '0', '.', '0', '.', '0', '.', '5'] ['4', '4', '3']
    ['b', 'a', 's', 't', 'i', 'o', 'n']
    (by decide) (by decide) (by decide) (by decide) (by decide) (by decide)
    (by decide) (by decide) (by decide) (by decide)

end LHUB
